import Mathlib

/-!
Verification development for the GoodRich PRF OCR PDF-extraction pipeline.

The definitions below are a shallow embedding of the Python sources
`src/parsing/pdf_text.py`, `src/parsing/table_parser.py` and
`src/parsing/pdf_ocr.py`.  Pure string-processing functions are translated
directly; the stateful orchestrator `PDFTextExtractor.extract_text_from_pdf`
is modelled as a function over an explicit environment that records the
outcome of each external backend (PyMuPDF, pdfminer, the OCR engines).

Conventions used throughout:
* Python `str.strip()` is modelled by `pyStrip` (the texts of interest
  use ASCII whitespace only).
* Python floats are modelled by `ℚ`; on every value computed in this file
  the rational and the IEEE double agree exactly.
* The regexes appearing in the sources are all of the shape
  "character-class run followed by a literal suffix" with the class and the
  suffix disjoint, so Python's leftmost-greedy `re.search` is modelled by a
  direct scan (`searchRunThen`).
-/

/-- Characters matched by the regex class `[0-9]` (inputs are ASCII digits). -/
def isDig (c : Char) : Bool := c.isDigit

/-- Characters matched by the regex class `[0-9,]`. -/
def isDigComma (c : Char) : Bool := c.isDigit || c = ','

/-- Characters matched by the regex class `[0-9.]`. -/
def isDigDot (c : Char) : Bool := c.isDigit || c = '.'

/-- `re.search` for a pattern `(cls+)suffix` with `cls` and the first
character of `suffix` disjoint: returns the group `cls+` of the leftmost
match (the maximal class run starting at the leftmost matching position),
or `none` when the pattern does not occur. -/
def searchRunThen (cls : Char → Bool) (suf : List Char) : List Char → Option (List Char)
  | [] => none
  | c :: cs =>
    if cls c && suf.isPrefixOf ((c :: cs).dropWhile cls) then
      some ((c :: cs).takeWhile cls)
    else
      searchRunThen cls suf cs

/-- `re.search` for a bare pattern `(cls+)`: group of the leftmost match. -/
def searchRun (cls : Char → Bool) (l : List Char) : Option (List Char) :=
  let rest := l.dropWhile (fun c => !cls c)
  if rest.isEmpty then none else some (rest.takeWhile cls)

/-- Numeric value of a digit string (most significant digit first). -/
def digitsVal (ds : List Char) : ℕ :=
  ds.foldl (fun a c => a * 10 + (c.toNat - '0'.toNat)) 0

/-- Python's `float()` restricted to strings over digits and `'.'` (the only
strings it is applied to in the sources, after commas are removed): succeeds
iff the string contains at least one digit, at most one dot, and nothing
else; `none` models the `ValueError` caught by the callers.  The value is
returned exactly, as a scaled natural `(n, k)` denoting `n / 10^k` (on every
value computed in the sources the IEEE double agrees with this exact
rational). -/
def pyFloat? (cs : List Char) : Option (ℕ × ℕ) :=
  if cs.all (fun c => c.isDigit || c = '.') && cs.count '.' ≤ 1 && cs.any (fun c => c.isDigit) then
    let intPart := cs.takeWhile (fun c => c ≠ '.')
    let fracPart := (cs.dropWhile (fun c => c ≠ '.')).drop 1
    some (digitsVal (intPart ++ fracPart), fracPart.length)
  else none

/-- Python's `int(v * multiplier)` for a nonnegative `v = n / 10^k`:
truncation toward zero, i.e. natural division here. -/
def truncScaled (v : ℕ × ℕ) (multiplier : ℕ) : ℕ :=
  v.1 * multiplier / 10 ^ v.2

/-- Python `s.strip()`: drop leading and trailing whitespace (the texts of
interest use ASCII whitespace). -/
def trimList (cs : List Char) : List Char :=
  ((cs.dropWhile Char.isWhitespace).reverse.dropWhile Char.isWhitespace).reverse

/-- Python `s.strip()` on strings. -/
def pyStrip (s : String) : String := ⟨trimList s.toList⟩

/-- Python `s.startswith(pre)`. -/
def pyStartsWith (s pre : String) : Bool := pre.toList.isPrefixOf s.toList

/-- `group.replace(',', '')`. -/
def stripCommas (cs : List Char) : List Char := cs.filter (fun c => c ≠ ',')

/-- `s.replace('%', '')`. -/
def stripPercent (cs : List Char) : List Char := cs.filter (fun c => c ≠ '%')

/-! ## `src/parsing/pdf_text.py`: amount extraction -/

/-- `PDFTextExtractor._extract_amount_raw`: the first of the five patterns
`([0-9,]+원)`, `([0-9]+원)`, `([0-9,]+천원)`, `([0-9,]+만원)`, `([0-9.]+억원)`
that matches yields its full matched group; `""` when none matches. -/
def extract_amount_raw (text : String) : String :=
  match searchRunThen isDigComma ['원'] text.toList with
  | some g => ⟨g ++ ['원']⟩
  | none =>
  match searchRunThen isDig ['원'] text.toList with
  | some g => ⟨g ++ ['원']⟩
  | none =>
  match searchRunThen isDigComma ['천', '원'] text.toList with
  | some g => ⟨g ++ ['천', '원']⟩
  | none =>
  match searchRunThen isDigComma ['만', '원'] text.toList with
  | some g => ⟨g ++ ['만', '원']⟩
  | none =>
  match searchRunThen isDigDot ['억', '원'] text.toList with
  | some g => ⟨g ++ ['억', '원']⟩
  | none => ""

/-- One step of `_extract_amount_norm`'s pattern loop: if the pattern
matched, parse the group with commas removed and truncate `value *
multiplier`; a parse failure (`except: continue`) falls through to the
remaining patterns. -/
def amountNormStep (g? : Option (List Char)) (multiplier : ℕ) (rest : ℕ) : ℕ :=
  match g? with
  | some g =>
    match pyFloat? (stripCommas g) with
    | some v => truncScaled v multiplier
    | none => rest
  | none => rest

/-- `PDFTextExtractor._extract_amount_norm`: patterns `([0-9,]+)원` (×1),
`([0-9,]+)천원` (×1000), `([0-9,]+)만원` (×10000), `([0-9.]+)억원`
(×100000000) tried in order; result of the first pattern that matches and
parses, else 0.  (Python returns the Python `int`; all values are
nonnegative, so `ℕ`.) -/
def extract_amount_norm (text : String) : ℕ :=
  amountNormStep (searchRunThen isDigComma ['원'] text.toList) 1 <|
    amountNormStep (searchRunThen isDigComma ['천', '원'] text.toList) 1000 <|
      amountNormStep (searchRunThen isDigComma ['만', '원'] text.toList) 10000 <|
        amountNormStep (searchRunThen isDigDot ['억', '원'] text.toList) 100000000 0

/-! ## `src/parsing/pdf_text.py`: table-line classification and the
table-structure builder -/

/-- Contiguous-sublist test (needle occurs somewhere in the haystack). -/
def hasSubList (needle : List Char) : List Char → Bool
  | [] => needle.isEmpty
  | c :: cs => needle.isPrefixOf (c :: cs) || hasSubList needle cs

/-- Python `needle in haystack` on strings. -/
def strContains (haystack needle : String) : Bool :=
  hasSubList needle.toList haystack.toList

/-- `PDFTextExtractor._is_table_line`: surrender keywords short-circuit to
true, otherwise at least two of the four numeric patterns `[0-9,]+원`,
`[0-9]+년`, `[0-9]+세`, `[0-9,]+%` must occur in the line. -/
def is_table_line (line_text : String) : Bool :=
  let surrenderKeywords := ["해약환급금", "환급금", "경과기간", "납입보험료", "적립부분", "보장부분"]
  if surrenderKeywords.any (fun kw => strContains line_text kw) then true
  else
    let cs := line_text.toList
    let patternCount :=
      (if (searchRunThen isDigComma ['원'] cs).isSome then 1 else 0) +
      (if (searchRunThen isDig ['년'] cs).isSome then 1 else 0) +
      (if (searchRunThen isDig ['세'] cs).isSome then 1 else 0) +
      (if (searchRunThen isDigComma ['%'] cs).isSome then 1 else 0)
    decide (patternCount ≥ 2)

/-- One cell of the table-structure builder's output
(`_extract_table_structure`).  The payload fields `text_norm`, `bbox`,
`font` and `size` of the Python dict are copied verbatim from the span and
are not modelled; no claim depends on them. -/
structure TableCell where
  row : ℕ
  col : ℕ
  text_raw : String
  amount_raw : String
  amount_norm_krw : ℕ
  page : ℕ
  deriving Repr, DecidableEq

/-- Cells emitted for one line: `line` is the page line's list of span
texts; spans with whitespace-only text are dropped, the remaining span
texts are concatenated (each followed by a space) into the classifier
input, and each surviving span becomes one cell.  `row` is
`len(table_data)` at the moment of the append, i.e. `accLen + index`. -/
def lineCells (page : ℕ) (accLen : ℕ) (line : List String) : List TableCell :=
  let spans := line.filter (fun s => pyStrip s ≠ "")
  let lineText : String := ⟨(spans.map (fun s => s ++ " ")).foldr (fun s acc => s.toList ++ acc) []⟩
  let tabular := is_table_line lineText
  spans.enum.map (fun p =>
    { row := accLen + p.1
      col := if tabular then p.1 else 0
      text_raw := p.2
      amount_raw := extract_amount_raw p.2
      amount_norm_krw := extract_amount_norm p.2
      page := page })

/-- The builder's loop over the page's lines, carrying the accumulated cell
list (whose length the source reads back as the next `row`). -/
def buildCells (page : ℕ) : List (List String) → List TableCell → List TableCell
  | [], acc => acc
  | line :: rest, acc => buildCells page rest (acc ++ lineCells page acc.length line)

/-- `PDFTextExtractor._extract_table_structure`, over the page's lines of
span texts (PyMuPDF blocks flattened to their lines, in order; `page` is
the 1-based page number `page.number + 1`). -/
def extract_table_structure (page : ℕ) (lines : List (List String)) : List TableCell :=
  buildCells page lines []

/-! ## `src/parsing/pdf_text.py`: fallback pagination -/

/-- Python `text.split('\n')` (always at least one chunk). -/
def pySplitNl : List Char → List (List Char)
  | [] => [[]]
  | c :: cs =>
    if c = '\n' then [] :: pySplitNl cs
    else
      match pySplitNl cs with
      | g :: gs => (c :: g) :: gs
      | [] => [[c]]

/-- `'\n'.join` at the character level. -/
def joinNl : List (List Char) → List Char
  | [] => []
  | [g] => g
  | g :: gs => g ++ '\n' :: joinNl gs


/-- Structural engine for `chunksOf`: the fuel only bounds the recursion
depth (it never runs out when initialized with the list's length, since
each step consumes at least one element). -/
def chunksOfFuel {α : Type} (n : ℕ) : ℕ → List α → List (List α)
  | _, [] => []
  | 0, x :: xs => [x :: xs]
  | fuel + 1, x :: xs => (x :: xs.take (n - 1)) :: chunksOfFuel n fuel (xs.drop (n - 1))

/-- The page loop of `_split_text_into_pages`: flush every `n` lines, the
remainder becomes a final short chunk. -/
def chunksOf {α : Type} (n : ℕ) (l : List α) : List (List α) :=
  chunksOfFuel n l.length l

/-- `PDFTextExtractor._split_text_into_pages`: split the blob on newlines,
group into chunks of `max 1 (lineCount / 10)` lines, re-join each chunk. -/
def split_text_into_pages (text : String) : List String :=
  let lines := pySplitNl text.toList
  let lpp := max 1 (lines.length / 10)
  (chunksOf lpp lines).map (fun g => ⟨joinNl g⟩)

/-! ## `src/parsing/pdf_text.py`: OCR decision policy -/

/-- Python `text.count('  ')` (non-overlapping double-space occurrences). -/
def countDoubleSpace : List Char → ℕ
  | ' ' :: ' ' :: rest => countDoubleSpace rest + 1
  | _ :: rest => countDoubleSpace rest
  | [] => 0

/-- Helper for `pySplitWs`: scan accumulating the current (reversed)
non-whitespace run. -/
def pySplitWsAux : List Char → List Char → List (List Char)
  | [], cur => if cur.isEmpty then [] else [cur.reverse]
  | c :: cs, cur =>
    if c.isWhitespace then
      if cur.isEmpty then pySplitWsAux cs [] else cur.reverse :: pySplitWsAux cs []
    else pySplitWsAux cs (c :: cur)

/-- Python `text.split()` with no separator: maximal non-whitespace runs. -/
def pySplitWs (cs : List Char) : List (List Char) := pySplitWsAux cs []

/-- `PDFTextExtractor._detect_table_structure`. -/
def detect_table_structure (text : String) : Bool :=
  if text = "" then false
  else
    let tableKeywords := ["해약환급금", "환급금", "경과기간", "납입보험료", "보험료",
      "특약", "담보", "면책", "납입면제", "갱신", "감액"]
    let hasKeywords := tableKeywords.any (fun kw => strContains text kw)
    let hasNumbers := text.toList.any (fun c => c.isDigit)
    let hasTableChars := strContains text "|" || strContains text "\t" || strContains text "  "
    if strContains text "해약환급금" || strContains text "환급금" then true
    else hasKeywords && (hasNumbers || hasTableChars)

/-- `PDFTextExtractor._is_likely_scanned_page`.  The float comparisons
`count/len > 0.3` and `count/max(words,1) > 0.5` are modelled by the exact
cross-multiplied integer comparisons. -/
def is_likely_scanned_page (text : String) : Bool :=
  if text = "" || text.length < 10 then true
  else
    let cs := text.toList
    let artifactCount := (cs.filter (fun c => c = 'l' || c = '|' || c = 'I' || c = '1')).length
    let wordCount := (pySplitWs cs).length
    decide (10 * artifactCount > 3 * text.length) ||
      decide (2 * countDoubleSpace cs > max wordCount 1)

/-- `PDFTextExtractor._has_poor_text_quality` (ratio `> 0.4` modelled by the
exact cross-multiplied comparison). -/
def has_poor_text_quality (text : String) : Bool :=
  if text = "" then true
  else
    let hasEncodingIssues := strContains text "�" || strContains text "???" ||
      strContains text "ï¿½"
    let words := pySplitWs text.toList
    if words.isEmpty then hasEncodingIssues
    else hasEncodingIssues ||
      decide (5 * (words.filter (fun w => w.length = 1)).length > 2 * words.length)

/-! ## `src/parsing/pdf_text.py`: page records and the orchestrator

A `Page` models the per-page dict.  Keys the source leaves absent and later
reads through `.get` with a default are modelled by that default
(`text_objects_count`/`cid_to_unicode_failure_rate` → 0, `has_ocr` → false,
`original_text` → none); the `structured_text` list is modelled by its
length (the only thing the source reads from it), and `ocr_confidence` is
not modelled (never read). -/
structure Page where
  pageNumber : ℕ
  text : String
  textLength : ℕ
  extractionMethod : String
  hasText : Bool
  textObjectsCount : ℕ
  cidFailureRate : ℚ
  tableData : List TableCell
  hasOcr : Bool := false
  originalText : Option String := none
  deriving Repr, DecidableEq

/-- `PDFTextExtractor._should_apply_ocr` (the page's text, already
stripped, is passed in by the caller). -/
def should_apply_ocr (page : Page) (page_text : String) : Bool :=
  if page.textObjectsCount > 0 && decide (page.cidFailureRate = 0) then false
  else if detect_table_structure page_text then true
  else
    decide (page_text.length < 50) ||
      is_likely_scanned_page page_text ||
      has_poor_text_quality page_text

/-- The environment of one `extract_text_from_pdf` call: the outcome of
every external backend.  `pymText`/`pymLayout` give PyMuPDF's text and span
lines for each 0-based physical page; a `pdfminer` outcome is one text
blob; `ocrFn` maps a 1-based page number to `_ocr_page`'s recognized text
(`none` when `_ocr_page` returns `None`, i.e. throws internally or both
engines fail); `ocrAvailable` is the `PDFOCRProcessor` import succeeding;
`openOk` is `fitz.open` succeeding inside `_create_empty_pages`. -/
structure Env where
  pageCount : ℕ
  pymThrows : Bool
  pymText : ℕ → String
  pymLayout : ℕ → List (List String)
  pdfmThrows : Bool
  pdfmText : String
  ocrAvailable : Bool
  ocrFn : ℕ → Option String
  openOk : Bool

/-- Length of `_extract_structured_text`'s result: one entry per span with
non-whitespace text. -/
def structured_text_count (lines : List (List String)) : ℕ :=
  ((lines.map (fun line => line.filter (fun s => pyStrip s ≠ ""))).flatten).length

/-- `PDFTextExtractor._extract_with_pymupdf`: one record per physical page. -/
def pymPages (env : Env) : List Page :=
  (List.range env.pageCount).map (fun i =>
    { pageNumber := i + 1
      text := env.pymText i
      textLength := (env.pymText i).length
      extractionMethod := "pymupdf"
      hasText := decide (pyStrip (env.pymText i) ≠ "")
      textObjectsCount := structured_text_count (env.pymLayout i)
      cidFailureRate := 0
      tableData := extract_table_structure (i + 1) (env.pymLayout i) })

/-- `PDFTextExtractor._extract_with_pdfminer`: one record per chunk of the
approximate page split. -/
def pdfmPages (env : Env) : List Page :=
  (split_text_into_pages env.pdfmText).enum.map (fun p =>
    { pageNumber := p.1 + 1
      text := p.2
      textLength := p.2.length
      extractionMethod := "pdfminer"
      hasText := decide (pyStrip p.2 ≠ "")
      textObjectsCount := 0
      cidFailureRate := 0
      tableData := [] })

/-- `PDFTextExtractor._create_empty_pages`. -/
def create_empty_pages (env : Env) : List Page :=
  (List.range (if env.openOk then env.pageCount else 1)).map (fun i =>
    { pageNumber := i + 1
      text := ""
      textLength := 0
      extractionMethod := "failed"
      hasText := false
      textObjectsCount := 0
      cidFailureRate := 0
      tableData := [] })

/-- `pages and any(page.get('text', '').strip() for page in pages)`,
the "meaningful text" check of `extract_text_from_pdf`. -/
def anyNonWs (pages : List Page) : Bool :=
  pages.any (fun p => decide (pyStrip p.text ≠ ""))

/-- Recompute `text_length`/`has_text` after OCR handling (source lines
258–259). -/
def finalizePage (p : Page) : Page :=
  { p with textLength := p.text.length, hasText := decide (p.text.length > 0) }

/-- The per-page body of `_apply_ocr_enhancement`'s loop: decide whether to
OCR, call `_ocr_page`, and merge.  `ocrFn page.pageNumber = some t` with
`t ≠ ""` models `ocr_result and ocr_result.get('ocr_text')` being truthy. -/
def enhance_page (ocrFn : ℕ → Option String) (page : Page) : Page :=
  if should_apply_ocr page (pyStrip page.text) then
    match ocrFn page.pageNumber with
    | some ocr_text =>
      if ocr_text ≠ "" then
        if (pyStrip ocr_text).length > (pyStrip page.text).length then
          finalizePage { page with
            text := ocr_text
            extractionMethod := "ocr_enhanced"
            originalText := some (pyStrip page.text)
            hasOcr := true }
        else
          finalizePage { page with
            text := if pyStrip page.text ≠ "" then
                pyStrip page.text ++ "\n\n[OCR추가내용]\n" ++ ocr_text
              else ocr_text
            extractionMethod := "hybrid"
            hasOcr := true }
      else finalizePage { page with hasOcr := false }
    | none => finalizePage { page with hasOcr := false }
  else finalizePage { page with hasOcr := false }

/-- `PDFTextExtractor._apply_ocr_enhancement`: when loading the OCR
processor fails the input pages are returned untouched, otherwise every
page goes through the per-page loop body. -/
def apply_ocr_enhancement (avail : Bool) (ocrFn : ℕ → Option String) (pages : List Page) :
    List Page :=
  if avail then pages.map (enhance_page ocrFn) else pages

/-- Steps 1–2 of `extract_text_from_pdf`: PyMuPDF, then the pdfminer
fallback (which keeps the previous pages when it throws, and overwrites
them when it returns, successful or not). -/
def pagesBeforeOcr (env : Env) : Bool × List Page :=
  let r1 : Bool × List Page :=
    if env.pymThrows then (false, [])
    else
      let ps := pymPages env
      (!ps.isEmpty && anyNonWs ps, ps)
  if r1.1 then r1
  else if env.pdfmThrows then (false, r1.2)
  else
    let ps := pdfmPages env
    (!ps.isEmpty && anyNonWs ps, ps)

/-- `PDFTextExtractor.extract_text_from_pdf`: steps 1–2, then the OCR
enhancement step (which sets `extraction_success = True` whenever it
returns a non-empty list), then the empty-pages fallback. -/
def extract_text_from_pdf (env : Env) (use_ocr : Bool) : Bool × List Page :=
  let r0 := pagesBeforeOcr env
  let r1 : Bool × List Page :=
    if use_ocr then
      let enhanced := apply_ocr_enhancement env.ocrAvailable env.ocrFn r0.2
      if enhanced.isEmpty then r0 else (true, enhanced)
    else r0
  (r1.1, if r1.2.isEmpty then create_empty_pages env else r1.2)

/-! ## `src/parsing/table_parser.py`: the surrender-value table parser -/

/-- `re.match(r'^\d+' ++ suffix, line)`: a nonempty digit run at the start,
immediately followed by `suffix` (digits and the suffix heads are
disjoint, so greedy matching is the maximal run). -/
def matchDigitsThen (suffix : List Char) (cs : List Char) : Bool :=
  !(cs.takeWhile isDig).isEmpty && suffix.isPrefixOf (cs.dropWhile isDig)

/-- `re.match(r'^\d+\.\d+%', line)`. -/
def matchDecPercent (cs : List Char) : Bool :=
  !(cs.takeWhile isDig).isEmpty &&
    match cs.dropWhile isDig with
    | '.' :: r2 =>
      !(r2.takeWhile isDig).isEmpty && decide ((r2.dropWhile isDig).head? = some '%')
    | _ => false

/-- One element of a data entry's `amounts` list
(`TableParser._extract_amounts_from_columns`). -/
structure AmountEntry where
  column : ℕ
  text : String
  amount_raw : String
  amount_norm : ℕ
  type : String
  deriving Repr, DecidableEq

/-- One entry of `TableParser._parse_table_data`'s result: the single
header entry carries the header lines; each data entry carries its column
lines and extracted amounts. -/
inductive SurrenderEntry where
  | header (columns : List String) (row : ℕ)
  | data (columns : List String) (row : ℕ) (amounts : List AmountEntry)
  deriving Repr, DecidableEq

/-- The per-column pattern loop of `_extract_amounts_from_columns`:
`([0-9,]+원)`, then `([0-9,]+)`, then `([0-9.]+%)`; the first group that
matches and parses wins (`int(value * 1)`; the value is read with commas
removed, and with `%` removed when present, which also selects the
`percentage` type). -/
def amountFromColumn (i : ℕ) (col : String) : Option AmountEntry :=
  let cs := col.toList
  let tryGroup : List Char → Option AmountEntry := fun group =>
    let amount_str := stripCommas group
    let isPct := amount_str.contains '%'
    match pyFloat? (if isPct then stripPercent amount_str else amount_str) with
    | some v =>
      some { column := i
             text := col
             amount_raw := ⟨group⟩
             amount_norm := truncScaled v 1
             type := if isPct then "percentage" else "currency" }
    | none => none
  (match searchRunThen isDigComma ['원'] cs with
   | some g => tryGroup (g ++ ['원'])
   | none => none).orElse fun _ =>
    (match searchRun isDigComma cs with
     | some g => tryGroup g
     | none => none).orElse fun _ =>
      match searchRunThen isDigDot ['%'] cs with
      | some g => tryGroup (g ++ ['%'])
      | none => none

/-- `TableParser._extract_amounts_from_columns`. -/
def extract_amounts_from_columns (columns : List String) : List AmountEntry :=
  columns.enum.filterMap (fun p => amountFromColumn p.1 p.2)

/-- Python `text.split('\n')` as strings. -/
def pySplitNlStr (text : String) : List String :=
  (pySplitNl text.toList).map (fun g => ⟨g⟩)

/-- `'\n'.join` on strings. -/
def joinNlStr (ls : List String) : String := ⟨joinNl (ls.map String.toList)⟩

/-- The line scan of `TableParser._extract_surrender_section`: start
capturing at a line containing "해약환급금 예시" or "경과기간"; stop at a
captured-section line that starts with "해약환급금" and contains "①". -/
def surrenderSectionLoop : List String → Bool → List String
  | [], _ => []
  | l :: rest, inSection =>
    let line := pyStrip l
    if line = "" then surrenderSectionLoop rest inSection
    else
      let inSection' := inSection || strContains line "해약환급금 예시" ||
        strContains line "경과기간"
      if inSection' && pyStartsWith line "해약환급금" && strContains line "①" then []
      else if inSection' then line :: surrenderSectionLoop rest inSection'
      else surrenderSectionLoop rest inSection'

/-- `TableParser._extract_surrender_section`. -/
def extract_surrender_section (text : String) : String :=
  joinNlStr (surrenderSectionLoop (pySplitNlStr text) false)

/-- `line == '0' or re.match(r'^\d+[,]') or re.match(r'^\d+\.\d+%')`, the
numeric-data-line test of the row loop (in the source's order). -/
def isNumericDataLine (line : String) : Bool :=
  matchDigitsThen [','] line.toList || matchDecPercent line.toList || line == "0"

/-- The row-segmentation loop of `_parse_table_data`, carrying
`data_started`, `current_row` and `row_count`.  A line matching `^\d+년` or
`^만기` starts a new row (flushing the previous one); numeric lines extend
the current row; any other line after data started flushes and stops the
scan.  When the input ends, the pending `current_row` is dropped — the
source has no flush after the loop. -/
def dataLoop : List String → Bool → List String → ℕ → List SurrenderEntry
  | [], _, _, _ => []
  | l :: rest, started, cur, rc =>
    let line := pyStrip l
    if line = "" then dataLoop rest started cur rc
    else if matchDigitsThen ['년'] line.toList || ['만', '기'].isPrefixOf line.toList then
      if cur.isEmpty then dataLoop rest true [line] rc
      else
        SurrenderEntry.data cur rc (extract_amounts_from_columns cur) ::
          dataLoop rest true [line] (rc + 1)
    else if started && isNumericDataLine line then
      dataLoop rest started (cur ++ [line]) rc
    else if started then
      if cur.isEmpty then []
      else [SurrenderEntry.data cur rc (extract_amounts_from_columns cur)]
    else dataLoop rest started cur rc

/-- `TableParser._parse_table_data`: collect every line containing a header
keyword into one `header` entry, then run the row-segmentation loop. -/
def parse_table_data (section_text : String) : List SurrenderEntry :=
  let lines := pySplitNlStr section_text
  let headerKeywords := ["경과기간", "납입보험료", "적립부분환급금", "보장부분환급금",
    "환급금(합계)", "환급률"]
  let headers := (lines.map pyStrip).filter
    (fun line => headerKeywords.any (fun kw => strContains line kw))
  if headers.isEmpty then []
  else SurrenderEntry.header headers 0 :: dataLoop lines false [] 0

/-- `TableParser.parse_surrender_value_table`. -/
def parse_surrender_value_table (text : String) : List SurrenderEntry :=
  let sectionText := extract_surrender_section text
  if sectionText = "" then [] else parse_table_data sectionText

/-- Data-entry discriminator. -/
def isDataEntry : SurrenderEntry → Bool
  | .data .. => true
  | .header .. => false

/-- The amounts of an entry (`[]` for the header entry). -/
def entryAmounts : SurrenderEntry → List AmountEntry
  | .data _ _ a => a
  | .header .. => []

/-! ## Spec-side description and concrete instances used by the theorems -/

/-- The cell layout the specification describes for the Table Structure
Builder (stated from the spec's words, for comparison with
`extract_table_structure`): per line, one cell per non-whitespace span,
whose column is the span's index within its line when the line is
classified tabular and 0 otherwise. -/
def cellLayoutSpec (lines : List (List String)) : List (ℕ × String) :=
  (lines.map (fun line =>
    let spans := line.filter (fun s => pyStrip s ≠ "")
    let lineText : String := ⟨(spans.map (fun s => s ++ " ")).foldr (fun s acc => s.toList ++ acc) []⟩
    let tabular := is_table_line lineText
    spans.enum.map (fun p => ((if tabular then p.1 else 0), p.2)))).flatten

/-- The synthetic surrender-value section of the spec's round-trip test:
the header line followed by the twelve row lines. -/
def c1Input : String :=
  "경과기간 납입보험료 적립부분환급금 보장부분환급금 환급금(합계) 환급률\n1년(37세)\n1,029,648\n0\n0\n0\n0.0%\n20년(56세)\n20,592,960\n0\n6,149,393\n6,149,393\n29.8%"

/-- A one-page document whose page has no extractable text and no spans,
with pdfminer throwing and OCR available but yielding nothing. -/
def cEnvC2 : Env :=
  { pageCount := 1
    pymThrows := false
    pymText := fun _ => ""
    pymLayout := fun _ => []
    pdfmThrows := true
    pdfmText := ""
    ocrAvailable := true
    ocrFn := fun _ => none
    openOk := true }

/-- A three-page document whose primary extraction throws, sending the
pipeline down the pdfminer fallback with a 25-line text blob. -/
def cEnvC3 : Env :=
  { pageCount := 3
    pymThrows := true
    pymText := fun _ => ""
    pymLayout := fun _ => []
    pdfmThrows := false
    pdfmText := joinNlStr (List.replicate 25 "x")
    ocrAvailable := false
    ocrFn := fun _ => none
    openOk := true }

/-- A page whose text has surrounding whitespace, eligible for OCR
(no structured spans, short text). -/
def pageC6 : Page :=
  { pageNumber := 1
    text := " a "
    textLength := 3
    extractionMethod := "pymupdf"
    hasText := true
    textObjectsCount := 0
    cidFailureRate := 0
    tableData := [] }

/-- A page with structured spans and a zero recorded decode-failure rate,
but empty text. -/
def pageC7 : Page :=
  { pageNumber := 1
    text := ""
    textLength := 0
    extractionMethod := "pymupdf"
    hasText := false
    textObjectsCount := 1
    cidFailureRate := 0
    tableData := [] }

/-- A page with a short plain text and no structured spans (so the OCR
decision policy opts in). -/
def pageC9 : Page :=
  { pageNumber := 2
    text := "short"
    textLength := 5
    extractionMethod := "pymupdf"
    hasText := true
    textObjectsCount := 0
    cidFailureRate := 0
    tableData := [] }

/-- A page with one-character stripped text, eligible for OCR. -/
def pageW6 : Page :=
  { pageNumber := 1
    text := "a"
    textLength := 1
    extractionMethod := "pymupdf"
    hasText := true
    textObjectsCount := 0
    cidFailureRate := 0
    tableData := [] }

/-- A one-page document whose page carries real text (primary path). -/
def cEnvW3 : Env :=
  { pageCount := 1
    pymThrows := false
    pymText := fun _ => "hello"
    pymLayout := fun _ => []
    pdfmThrows := true
    pdfmText := ""
    ocrAvailable := false
    ocrFn := fun _ => none
    openOk := true }

/-! # Theorems -/

/-- Building block: a string made of a nonempty character list is not
empty. -/
theorem mk_ne_empty_of_ne_nil (l : List Char) (h : l ≠ []) : (⟨l⟩ : String) ≠ "" := by
  intro he
  apply h
  have hd := congrArg String.data he
  simpa using hd

/-- C1 (code bug): on the synthetic surrender-value section, the parser
returns exactly one header entry but only ONE data entry (the pending
final row is dropped when the input ends, since the source only flushes a
row when another row starts or a non-data line follows), and no extracted
amount is ever typed `percentage` (the bare-digit pattern `([0-9,]+)`
precedes the percentage pattern and matches first), so no amount with
value 29.8 and none with `amount_norm = 6149393` appears either. -/
theorem C1_code_divergence :
    ((parse_surrender_value_table c1Input).filter isDataEntry).length = 1 ∧
    ((parse_surrender_value_table c1Input).filter (fun e => !isDataEntry e)).length = 1 ∧
    ((parse_surrender_value_table c1Input).map entryAmounts).flatten.all
      (fun a => a.type != "percentage" && a.amount_norm != 6149393) = true := by
  decide

/-- C5 (counterexample): for the text "0원" the extracted raw amount is
the nonempty string "0원" while the normalized amount is 0, so the claimed
equivalence `amount_norm > 0 ⟺ amount_raw ≠ ""` fails. -/
theorem C5_counterexample :
    ¬(0 < extract_amount_norm "0원" ↔ extract_amount_raw "0원" ≠ "") := by
  decide

/-- C5 (amended): only the forward direction holds — a strictly positive
normalized amount forces a nonempty raw amount (every normalization
pattern that can fire implies one of the raw patterns fires). -/
theorem C5_amount_invariant (text : String) (h : 0 < extract_amount_norm text) :
    extract_amount_raw text ≠ "" := by
  unfold extract_amount_norm at h
  unfold extract_amount_raw
  cases e1 : searchRunThen isDigComma ['원'] text.toList with
  | some g => simp only [e1]; exact mk_ne_empty_of_ne_nil _ (by simp)
  | none =>
    simp only [e1]
    rw [e1] at h
    simp only [amountNormStep] at h
    cases e2 : searchRunThen isDig ['원'] text.toList with
    | some g => exact mk_ne_empty_of_ne_nil _ (by simp)
    | none =>
      simp only [e2]
      cases e3 : searchRunThen isDigComma ['천', '원'] text.toList with
      | some g => simp only [e3]; exact mk_ne_empty_of_ne_nil _ (by simp)
      | none =>
        simp only [e3]
        rw [e3] at h
        simp only [amountNormStep] at h
        cases e4 : searchRunThen isDigComma ['만', '원'] text.toList with
        | some g => simp only [e4]; exact mk_ne_empty_of_ne_nil _ (by simp)
        | none =>
          simp only [e4]
          rw [e4] at h
          simp only [amountNormStep] at h
          cases e5 : searchRunThen isDigDot ['억', '원'] text.toList with
          | some g => simp only [e5]; exact mk_ne_empty_of_ne_nil _ (by simp)
          | none =>
            rw [e5] at h
            simp [amountNormStep] at h

/-- C5 (witness): a concrete instantiation of the amended invariant. -/
theorem C5_witness : extract_amount_raw "85,804원" ≠ "" :=
  C5_amount_invariant "85,804원" (by decide)

/-- C8: unit normalization is exact integer expansion on the three spec
examples, and the normalized amount is 0 whenever none of the four amount
patterns matches. -/
theorem C8_unit_normalization :
    extract_amount_norm "1,000천원" = 1000000 ∧
    extract_amount_norm "100만원" = 1000000 ∧
    extract_amount_norm "1.5억원" = 150000000 ∧
    ∀ text : String,
      searchRunThen isDigComma ['원'] text.toList = none →
      searchRunThen isDigComma ['천', '원'] text.toList = none →
      searchRunThen isDigComma ['만', '원'] text.toList = none →
      searchRunThen isDigDot ['억', '원'] text.toList = none →
      extract_amount_norm text = 0 := by
  refine ⟨by decide, by decide, by decide, ?_⟩
  intro text e1 e2 e3 e4
  simp only [String.toList] at e1 e2 e3 e4
  simp [extract_amount_norm, e1, e2, e3, e4, amountNormStep]

/-- C8 (witness): the no-pattern branch instantiated at "abc". -/
theorem C8_witness : extract_amount_norm "abc" = 0 :=
  C8_unit_normalization.2.2.2 "abc" (by decide) (by decide) (by decide) (by decide)

/-- C7: a page with structured spans and a zero recorded decode-failure
rate never triggers OCR, whatever its text; in particular the OCR
enhancement loop leaves its text unchanged and sets `has_ocr = false`. -/
theorem C7_no_ocr_on_structured_pages (page : Page)
    (h1 : 0 < page.textObjectsCount) (h2 : page.cidFailureRate = 0) :
    (∀ page_text : String, should_apply_ocr page page_text = false) ∧
    ∀ ocrFn : ℕ → Option String,
      (enhance_page ocrFn page).hasOcr = false ∧
      (enhance_page ocrFn page).text = page.text := by
  have hs : ∀ pt : String, should_apply_ocr page pt = false := by
    intro pt
    unfold should_apply_ocr
    simp [h1, h2]
  refine ⟨hs, fun ocrFn => ?_⟩
  unfold enhance_page
  rw [hs]
  simp [finalizePage]

/-- C7 (witness): the spec's scenario — empty text, spans present,
failure rate zero — on a concrete page. -/
theorem C7_witness :
    should_apply_ocr pageC7 "" = false ∧
    (enhance_page (fun _ => some "NOISE") pageC7).hasOcr = false ∧
    (enhance_page (fun _ => some "NOISE") pageC7).text = "" :=
  ⟨(C7_no_ocr_on_structured_pages pageC7 (by decide) rfl).1 "",
   ((C7_no_ocr_on_structured_pages pageC7 (by decide) rfl).2 (fun _ => some "NOISE")).1,
   ((C7_no_ocr_on_structured_pages pageC7 (by decide) rfl).2 (fun _ => some "NOISE")).2⟩

/-- C9: when a page's OCR call yields nothing (`None` or empty text), the
page keeps its pre-OCR text and ends with `has_ocr = false`, and the
enhancement pass still maps over every page of the document (it never
aborts: the result is exactly the per-page processing of the whole list). -/
theorem C9_page_ocr_failure (ocrFn : ℕ → Option String) (p : Page)
    (hs : should_apply_ocr p (pyStrip p.text) = true)
    (hf : ocrFn p.pageNumber = none ∨ ocrFn p.pageNumber = some "") :
    (enhance_page ocrFn p).text = p.text ∧
    (enhance_page ocrFn p).hasOcr = false ∧
    ∀ pages : List Page,
      apply_ocr_enhancement true ocrFn pages = pages.map (enhance_page ocrFn) ∧
      (apply_ocr_enhancement true ocrFn pages).length = pages.length := by
  have he : enhance_page ocrFn p = finalizePage { p with hasOcr := false } := by
    unfold enhance_page
    rw [hs]
    rcases hf with hf | hf
    · rw [hf]; simp
    · rw [hf]; simp
  refine ⟨by rw [he]; simp [finalizePage], by rw [he]; simp [finalizePage], ?_⟩
  intro pages
  exact ⟨by simp [apply_ocr_enhancement], by simp [apply_ocr_enhancement]⟩

/-- C9 (witness): a concrete failing OCR call on a concrete page. -/
theorem C9_witness :
    (enhance_page (fun _ => none) pageC9).text = pageC9.text ∧
    (enhance_page (fun _ => none) pageC9).hasOcr = false :=
  ⟨(C9_page_ocr_failure (fun _ => none) pageC9 (by decide) (Or.inl rfl)).1,
   (C9_page_ocr_failure (fun _ => none) pageC9 (by decide) (Or.inl rfl)).2.1⟩

/-- A prefix test succeeds on a list extended on the right. -/
theorem isPrefixOf_append_self (l r : List Char) : l.isPrefixOf (l ++ r) = true := by
  induction l with
  | nil => simp [List.isPrefixOf]
  | cons a t ih => simp [List.isPrefixOf, ih]

/-- A prefix occurs as a contiguous sublist. -/
theorem hasSubList_of_isPrefixOf (n h : List Char) (hp : n.isPrefixOf h = true) :
    hasSubList n h = true := by
  cases h with
  | nil =>
    cases n with
    | nil => rfl
    | cons a t => simp [List.isPrefixOf] at hp
  | cons c cs => simp [hasSubList, hp]

/-- A contiguous-sublist occurrence survives prepending. -/
theorem hasSubList_append_left (n pre h : List Char) (hs : hasSubList n h = true) :
    hasSubList n (pre ++ h) = true := by
  induction pre with
  | nil => exact hs
  | cons c cs ih => simp [hasSubList, ih]

/-- Every list is a contiguous sublist of itself. -/
theorem hasSubList_self (l : List Char) : hasSubList l l = true := by
  apply hasSubList_of_isPrefixOf
  have h := isPrefixOf_append_self l []
  rwa [List.append_nil] at h

/-- C6 (counterexample): the merge rule compares and stores STRIPPED
texts.  For a page whose text is " a " and OCR text "bb", the OCR text is
not longer than the existing page text (2 ≤ 3), so the claim requires the
hybrid concatenation — but the code compares stripped lengths (2 > 1) and
replaces, producing `extraction_method = "ocr_enhanced"`. -/
theorem C6_counterexample :
    should_apply_ocr pageC6 (pyStrip pageC6.text) = true ∧
    ¬(("bb" : String).length > pageC6.text.length) ∧
    (enhance_page (fun _ => some "bb") pageC6).extractionMethod = "ocr_enhanced" ∧
    (enhance_page (fun _ => some "bb") pageC6).extractionMethod ≠ "hybrid" := by
  decide

/-- C6 (amended): for every page on which OCR runs and yields text, with
lengths and the preserved/concatenated existing text taken after
stripping: if the stripped OCR text is strictly longer than the stripped
page text, the OCR text replaces it (`ocr_enhanced`, stripped original
kept in `original_text`); otherwise the stripped existing text and the OCR
text are concatenated with the separator marker (both present as
substrings, `hybrid`). -/
theorem C6_merge_rule (page : Page) (t : String) (ocrFn : ℕ → Option String)
    (hs : should_apply_ocr page (pyStrip page.text) = true)
    (hf : ocrFn page.pageNumber = some t) (ht : t ≠ "") :
    ((pyStrip t).length > (pyStrip page.text).length →
      (enhance_page ocrFn page).text = t ∧
      (enhance_page ocrFn page).extractionMethod = "ocr_enhanced" ∧
      (enhance_page ocrFn page).originalText = some (pyStrip page.text)) ∧
    (¬((pyStrip t).length > (pyStrip page.text).length) →
      (enhance_page ocrFn page).extractionMethod = "hybrid" ∧
      strContains (enhance_page ocrFn page).text (pyStrip page.text) = true ∧
      strContains (enhance_page ocrFn page).text t = true) := by
  have he : enhance_page ocrFn page =
      (if (pyStrip t).length > (pyStrip page.text).length then
        finalizePage { page with
          text := t
          extractionMethod := "ocr_enhanced"
          originalText := some (pyStrip page.text)
          hasOcr := true }
      else
        finalizePage { page with
          text := if pyStrip page.text ≠ "" then
              pyStrip page.text ++ "\n\n[OCR추가내용]\n" ++ t
            else t
          extractionMethod := "hybrid"
          hasOcr := true }) := by
    unfold enhance_page
    rw [hs, hf]
    simp [ht]
  rw [he]
  constructor
  · intro hgt
    rw [if_pos hgt]
    simp [finalizePage]
  · intro hle
    rw [if_neg hle]
    clear he
    refine ⟨by simp [finalizePage], ?_, ?_⟩
    · simp only [finalizePage]
      by_cases hpt : pyStrip page.text ≠ ""
      · rw [if_pos hpt]
        unfold strContains
        simp only [String.toList, String.data_append]
        apply hasSubList_of_isPrefixOf
        rw [List.append_assoc]
        exact isPrefixOf_append_self _ _
      · rw [if_neg hpt]
        push_neg at hpt
        rw [hpt]
        unfold strContains
        apply hasSubList_of_isPrefixOf
        simp [List.isPrefixOf]
    · simp only [finalizePage]
      by_cases hpt : pyStrip page.text ≠ ""
      · rw [if_pos hpt]
        unfold strContains
        simp only [String.toList, String.data_append]
        rw [List.append_assoc]
        exact hasSubList_append_left _ _ _ (hasSubList_append_left _ _ _ (hasSubList_self _))
      · rw [if_neg hpt]
        exact hasSubList_self _
    
/-- C6 (witness): a page with stripped text "a" and OCR text "bcd"
(strictly longer) is replaced. -/
theorem C6_witness :
    (enhance_page (fun _ => some "bcd") pageW6).text = "bcd" ∧
    (enhance_page (fun _ => some "bcd") pageW6).extractionMethod = "ocr_enhanced" ∧
    (enhance_page (fun _ => some "bcd") pageW6).originalText = some (pyStrip pageW6.text) :=
  (C6_merge_rule pageW6 "bcd" (fun _ => some "bcd") (by decide) rfl (by decide)).1 (by decide)

/-- The rows of the cells emitted for one line are
`accLen, accLen+1, ...` in order. -/
theorem lineCells_map_row (page accLen : ℕ) (line : List String) :
    (lineCells page accLen line).map (fun c => c.row) =
      (List.range (lineCells page accLen line).length).map (fun i => accLen + i) := by
  unfold lineCells
  rw [List.map_map, List.length_map, List.enum_length]
  conv_rhs => rw [← List.enum_map_fst (line.filter (fun s => pyStrip s ≠ ""))]
  rw [List.map_map]
  rfl

/-- Generalized row invariant of the builder's loop: if the accumulated
cells are numbered `0, 1, ...`, so is the final list. -/
theorem buildCells_map_row (page : ℕ) (lines : List (List String)) :
    ∀ acc : List TableCell, acc.map (fun c => c.row) = List.range acc.length →
      (buildCells page lines acc).map (fun c => c.row) =
        List.range (buildCells page lines acc).length := by
  induction lines with
  | nil => intro acc h; simpa [buildCells] using h
  | cons line rest ih =>
    intro acc h
    rw [buildCells]
    apply ih
    rw [List.map_append, List.length_append, h, List.range_add, lineCells_map_row]

/-- The `(col, text)` pairs of the cells emitted for one line agree with
the spec-side description of that line. -/
theorem lineCells_map_colspec (page accLen : ℕ) (line : List String) :
    (lineCells page accLen line).map (fun c => (c.col, c.text_raw)) =
      (line.filter (fun s => pyStrip s ≠ "")).enum.map (fun p =>
        ((if is_table_line
            ⟨(((line.filter (fun s => pyStrip s ≠ "")).map (fun s => s ++ " ")).foldr
              (fun s acc => s.toList ++ acc) [])⟩ then p.1 else 0), p.2)) := by
  unfold lineCells
  rw [List.map_map]
  rfl

/-- Generalized `(col, text)` layout lemma for the builder's loop. -/
theorem buildCells_map_colspec (page : ℕ) (lines : List (List String)) :
    ∀ acc : List TableCell,
      (buildCells page lines acc).map (fun c => (c.col, c.text_raw)) =
        acc.map (fun c => (c.col, c.text_raw)) ++ cellLayoutSpec lines := by
  induction lines with
  | nil => intro acc; simp [buildCells, cellLayoutSpec]
  | cons line rest ih =>
    intro acc
    rw [buildCells, ih, List.map_append, List.append_assoc]
    congr 1
    unfold cellLayoutSpec
    rw [List.map_cons, List.flatten_cons]
    congr 1
    exact lineCells_map_colspec page acc.length line

/-- C4 (amended): `row` is the cell's index in the page's emitted cell
list — it increments once per emitted CELL (so cells from one tabular line
get consecutive, distinct rows), while the `(col, text)` layout matches
the claimed per-line description: one cell per non-whitespace span, `col`
= span index within the line when tabular, else 0. -/
theorem C4_cell_layout (page : ℕ) (lines : List (List String)) :
    (extract_table_structure page lines).map (fun c => c.row) =
      List.range (extract_table_structure page lines).length ∧
    (extract_table_structure page lines).map (fun c => (c.col, c.text_raw)) =
      cellLayoutSpec lines := by
  constructor
  · exact buildCells_map_row page lines [] (by simp)
  · simpa using buildCells_map_colspec page lines []

/-- C4 (counterexample): the line "1년" "37세" is classified tabular, yet
its two cells receive DIFFERENT `row` values (the counter increments per
cell, not per tabular line). -/
theorem C4_counterexample :
    is_table_line "1년 37세 " = true ∧
    (∃ c ∈ extract_table_structure 1 [["1년", "37세"]],
      ∃ c' ∈ extract_table_structure 1 [["1년", "37세"]], c.row ≠ c'.row) := by
  decide

/-- `anyNonWs` read as an existential. -/
theorem anyNonWs_iff_mem (ps : List Page) :
    anyNonWs ps = true ↔ ∃ p ∈ ps, pyStrip p.text ≠ "" := by
  simp [anyNonWs, List.any_eq_true]

/-- The flag computed by steps 1–2 equals "the delivered page list is
non-empty and some page has non-whitespace text" — for whichever backend's
pages were delivered. -/
theorem pagesBeforeOcr_spec (env : Env) :
    (pagesBeforeOcr env).1 =
      (!(pagesBeforeOcr env).2.isEmpty && anyNonWs (pagesBeforeOcr env).2) := by
  unfold pagesBeforeOcr
  cases h1 : env.pymThrows
  · by_cases h3 : (!(pymPages env).isEmpty && anyNonWs (pymPages env)) = true
    · simp [h3]
    · simp only [Bool.not_eq_true] at h3
      cases h2 : env.pdfmThrows
      · simp [h3]
      · simp [h3, h2]
  · cases h2 : env.pdfmThrows
    · simp [h1]
    · simp [h1, h2, anyNonWs]

/-- Every page fabricated by `_create_empty_pages` has empty text. -/
theorem create_empty_text (env : Env) : ∀ p ∈ create_empty_pages env, p.text = "" := by
  intro p hp
  simp only [create_empty_pages, List.mem_map] at hp
  obtain ⟨i, _, rfl⟩ := hp
  rfl

/-- OCR enhancement preserves emptiness of the page list. -/
theorem apply_ocr_isEmpty (avail : Bool) (f : ℕ → Option String) (ps : List Page) :
    (apply_ocr_enhancement avail f ps).isEmpty = ps.isEmpty := by
  cases avail <;> cases ps <;> simp [apply_ocr_enhancement]

/-- OCR enhancement preserves the length of the page list. -/
theorem apply_ocr_length (avail : Bool) (f : ℕ → Option String) (ps : List Page) :
    (apply_ocr_enhancement avail f ps).length = ps.length := by
  cases avail <;> simp [apply_ocr_enhancement]

/-- When steps 1–2 deliver no pages at all, the result is `success = false`
with the fabricated empty pages, for either value of `use_ocr`. -/
theorem extract_empty_case (env : Env) (u : Bool)
    (hemp : (pagesBeforeOcr env).2 = []) :
    extract_text_from_pdf env u = (false, create_empty_pages env) := by
  have hs0 : (pagesBeforeOcr env).1 = false := by
    rw [pagesBeforeOcr_spec env, hemp]; rfl
  have hr : pagesBeforeOcr env = (false, []) := by
    rw [← @Prod.mk.eta _ _ (pagesBeforeOcr env), hs0, hemp]
  unfold extract_text_from_pdf
  rw [hr]
  cases u
  · simp
  · cases hav : env.ocrAvailable <;> simp [apply_ocr_enhancement, hav]

/-- When steps 1–2 deliver pages and `use_ocr` is set, the OCR step
unconditionally reports success with the enhanced pages. -/
theorem extract_nonempty_ocr (env : Env) (hne : (pagesBeforeOcr env).2 ≠ []) :
    extract_text_from_pdf env true =
      (true, apply_ocr_enhancement env.ocrAvailable env.ocrFn (pagesBeforeOcr env).2) := by
  have hae : (apply_ocr_enhancement env.ocrAvailable env.ocrFn (pagesBeforeOcr env).2).isEmpty
      = false := by
    rw [apply_ocr_isEmpty]
    simp [List.isEmpty_iff, hne]
  unfold extract_text_from_pdf
  simp [hae]

/-- When steps 1–2 deliver pages and `use_ocr` is not set, the result is
exactly those pages with the steps-1–2 flag. -/
theorem extract_nonempty_noocr (env : Env) (hne : (pagesBeforeOcr env).2 ≠ []) :
    extract_text_from_pdf env false =
      ((pagesBeforeOcr env).1, (pagesBeforeOcr env).2) := by
  unfold extract_text_from_pdf
  simp [List.isEmpty_iff, hne]

/-- C2 (counterexample): a one-page document with no extractable text
anywhere and OCR yielding nothing still reports `success = true` when
`use_ocr` is set (the OCR step sets the flag whenever its returned page
list is non-empty, whether or not any text was produced). -/
theorem C2_counterexample :
    ¬((extract_text_from_pdf cEnvC2 true).1 = true ↔
      ∃ p ∈ (extract_text_from_pdf cEnvC2 true).2, pyStrip p.text ≠ "") := by
  decide

/-- C2 (amended): `success = true` iff some returned page has
non-whitespace text OR `use_ocr` is set and the extraction stages
delivered at least one page record to the OCR step (whatever its text). -/
theorem C2_success_criterion (env : Env) (u : Bool) :
    (extract_text_from_pdf env u).1 = true ↔
      ((∃ p ∈ (extract_text_from_pdf env u).2, pyStrip p.text ≠ "") ∨
        (u = true ∧ (pagesBeforeOcr env).2 ≠ [])) := by
  by_cases hemp : (pagesBeforeOcr env).2 = []
  · rw [extract_empty_case env u hemp]
    constructor
    · intro h; simp at h
    · rintro (⟨p, hp, hne⟩ | ⟨_, hne⟩)
      · rw [create_empty_text env p hp] at hne
        exact absurd rfl hne
      · exact absurd hemp hne
  · cases u
    · rw [extract_nonempty_noocr env hemp]
      simp only [Bool.false_eq_true, false_and, or_false]
      rw [pagesBeforeOcr_spec env, Bool.and_eq_true, anyNonWs_iff_mem]
      constructor
      · intro h; exact h.2
      · intro h
        refine ⟨?_, h⟩
        simp [List.isEmpty_iff, hemp]
    · rw [extract_nonempty_ocr env hemp]
      simp [hemp]

/-- C3 (counterexample): a three-page document going down the pdfminer
fallback with a 25-line blob comes back as 13 approximate pages, not 3 —
the fallback path does not preserve the physical page count. -/
theorem C3_counterexample :
    (extract_text_from_pdf cEnvC3 false).2.length ≠ cEnvC3.pageCount := by
  decide

/-- C3 (amended): the page list's length equals the document's physical
page count on the primary path (PyMuPDF returns and some page has
non-whitespace text) and on total failure with the count obtainable; on
the pdfminer fallback path it is the splitter's chunk count instead. -/
theorem C3_page_count (env : Env) (u : Bool) :
    (env.pymThrows = false → anyNonWs (pymPages env) = true →
      (extract_text_from_pdf env u).2.length = env.pageCount) ∧
    (env.pymThrows = true → env.pdfmThrows = true → env.openOk = true →
      (extract_text_from_pdf env u).2.length = env.pageCount) := by
  constructor
  · intro h1 h2
    have hpm : pymPages env ≠ [] := by
      intro h; rw [h] at h2; simp [anyNonWs] at h2
    have hr : pagesBeforeOcr env = (true, pymPages env) := by
      unfold pagesBeforeOcr
      simp [h1, h2, List.isEmpty_iff, hpm]
    cases u
    · rw [extract_nonempty_noocr env (by rw [hr]; exact hpm)]
      simp only
      rw [hr]
      simp [pymPages]
    · rw [extract_nonempty_ocr env (by rw [hr]; exact hpm)]
      simp only
      rw [apply_ocr_length, hr]
      simp [pymPages]
  · intro h1 h2 h3
    have hr : pagesBeforeOcr env = (false, []) := by
      unfold pagesBeforeOcr
      simp [h1, h2]
    rw [extract_empty_case env u (by rw [hr])]
    simp [create_empty_pages, h3]

/-- C3 (witness): the primary path on a one-page document with text. -/
theorem C3_witness : (extract_text_from_pdf cEnvW3 false).2.length = cEnvW3.pageCount :=
  (C3_page_count cEnvW3 false).1 rfl (by decide)

/-- With enough fuel, the chunks of the splitter's loop flatten back to
the input lines. -/
theorem chunksOfFuel_flatten {α : Type} (n : ℕ) :
    ∀ (fuel : ℕ) (l : List α), l.length ≤ fuel →
      (chunksOfFuel n fuel l).flatten = l := by
  intro fuel
  induction fuel with
  | zero =>
    intro l h
    cases l with
    | nil => rfl
    | cons x xs => simp at h
  | succ f ih =>
    intro l h
    cases l with
    | nil => rfl
    | cons x xs =>
      simp only [chunksOfFuel, List.flatten_cons, List.cons_append]
      rw [ih]
      · rw [List.take_append_drop]
      · have h1 : (xs.drop (n - 1)).length ≤ xs.length := by simp
        have h2 : xs.length ≤ f := by simpa using h
        omega

/-- The chunks flatten back to the input lines. -/
theorem chunksOf_flatten {α : Type} (n : ℕ) (l : List α) :
    (chunksOf n l).flatten = l :=
  chunksOfFuel_flatten n l.length l le_rfl

/-- Every chunk the loop produces is non-empty. -/
theorem chunksOfFuel_mem_ne_nil {α : Type} (n : ℕ) :
    ∀ (fuel : ℕ) (l : List α), ∀ g ∈ chunksOfFuel n fuel l, g ≠ [] := by
  intro fuel
  induction fuel with
  | zero =>
    intro l g hg
    cases l with
    | nil => simp [chunksOfFuel] at hg
    | cons x xs =>
      simp only [chunksOfFuel, List.mem_singleton] at hg
      subst hg; simp
  | succ f ih =>
    intro l g hg
    cases l with
    | nil => simp [chunksOfFuel] at hg
    | cons x xs =>
      simp only [chunksOfFuel, List.mem_cons] at hg
      rcases hg with rfl | hg
      · simp
      · exact ih _ g hg

/-- Every chunk of `chunksOf` is non-empty. -/
theorem chunksOf_mem_ne_nil {α : Type} (n : ℕ) (l : List α) (g : List α)
    (hg : g ∈ chunksOf n l) : g ≠ [] :=
  chunksOfFuel_mem_ne_nil n l.length l g hg

/-- The splitter never returns an empty chunk list on a cons input. -/
theorem chunksOf_ne_nil {α : Type} (n : ℕ) (l : List α) (h : l ≠ []) :
    chunksOf n l ≠ [] := by
  cases l with
  | nil => exact absurd rfl h
  | cons x xs => simp [chunksOf, chunksOfFuel]

/-- Every chunk except possibly the last has exactly `n` elements (for
positive `n` and enough fuel). -/
theorem chunksOfFuel_dropLast_length {α : Type} (n : ℕ) (hn : 0 < n) :
    ∀ (fuel : ℕ) (l : List α), l.length ≤ fuel →
      ∀ g ∈ (chunksOfFuel n fuel l).dropLast, g.length = n := by
  intro fuel
  induction fuel with
  | zero =>
    intro l h g hg
    cases l with
    | nil => simp [chunksOfFuel] at hg
    | cons x xs => simp at h
  | succ f ih =>
    intro l h g hg
    cases l with
    | nil => simp [chunksOfFuel] at hg
    | cons x xs =>
      simp only [chunksOfFuel] at hg
      rcases hrest : chunksOfFuel n f (xs.drop (n - 1)) with _ | ⟨r, rs⟩
      · rw [hrest] at hg
        simp at hg
      · rw [hrest, List.dropLast_cons_of_ne_nil (by simp), List.mem_cons] at hg
        have hxs : xs.length ≤ f := by simpa using h
        rcases hg with rfl | hg
        · have hdrop : xs.drop (n - 1) ≠ [] := by
            intro hd
            rw [hd] at hrest
            simp [chunksOfFuel] at hrest
          have hlen : n - 1 < xs.length := by
            by_contra hcon
            push_neg at hcon
            exact hdrop (List.drop_of_length_le hcon)
          simp only [List.length_cons, List.length_take]
          omega
        · rw [← hrest] at hg
          exact ih (xs.drop (n - 1)) (by simp only [List.length_drop]; omega) g hg

/-- `'\n'.join` of at least two groups peels the first group and one
separator. -/
theorem joinNl_cons (g : List Char) (gs : List (List Char)) (h : gs ≠ []) :
    joinNl (g :: gs) = g ++ '\n' :: joinNl gs := by
  cases gs with
  | nil => exact absurd rfl h
  | cons g2 gs2 => rfl

/-- Splitting on newlines never yields an empty group list. -/
theorem pySplitNl_ne_nil (cs : List Char) : pySplitNl cs ≠ [] := by
  cases cs with
  | nil => simp [pySplitNl]
  | cons c cs' =>
    by_cases h : c = '\n'
    · simp [pySplitNl, h]
    · simp only [pySplitNl, h, if_false]
      rcases pySplitNl cs' with _ | ⟨g, gs⟩ <;> simp

/-- `'\n'.join` is a left inverse of splitting on newlines. -/
theorem joinNl_pySplitNl (cs : List Char) : joinNl (pySplitNl cs) = cs := by
  induction cs with
  | nil => rfl
  | cons c cs' ih =>
    by_cases h : c = '\n'
    · subst h
      rw [show pySplitNl ('\n' :: cs') = [] :: pySplitNl cs' from by simp [pySplitNl]]
      rw [joinNl_cons [] (pySplitNl cs') (pySplitNl_ne_nil cs')]
      rw [ih]
      rfl
    · rcases e : pySplitNl cs' with _ | ⟨g, gs⟩
      · exact absurd e (pySplitNl_ne_nil cs')
      · rw [show pySplitNl (c :: cs') = (c :: g) :: gs from by simp [pySplitNl, h, e]]
        cases gs with
        | nil =>
          rw [e] at ih
          show c :: g = c :: cs'
          rw [show joinNl [g] = g from rfl] at ih
          rw [ih]
        | cons g2 gs2 =>
          rw [joinNl_cons _ _ (by simp)]
          rw [e] at ih
          rw [joinNl_cons _ _ (by simp)] at ih
          rw [List.cons_append, ih]

/-- No group produced by the newline split contains a newline. -/
theorem pySplitNl_no_newline (cs : List Char) :
    ∀ g ∈ pySplitNl cs, '\n' ∉ g := by
  induction cs with
  | nil =>
    intro g hg
    simp only [pySplitNl, List.mem_singleton] at hg
    subst hg; simp
  | cons c cs' ih =>
    intro g hg
    by_cases h : c = '\n'
    · rw [show pySplitNl (c :: cs') = [] :: pySplitNl cs' from by simp [pySplitNl, h]] at hg
      rcases List.mem_cons.mp hg with rfl | hg
      · simp
      · exact ih g hg
    · rcases e : pySplitNl cs' with _ | ⟨g0, gs⟩
      · exact absurd e (pySplitNl_ne_nil cs')
      · rw [show pySplitNl (c :: cs') = (c :: g0) :: gs from by simp [pySplitNl, h, e]] at hg
        rcases List.mem_cons.mp hg with rfl | hg
        · intro hmem
          rcases List.mem_cons.mp hmem with hc | hmem
          · exact h hc.symm
          · exact ih g0 (by rw [e]; exact List.mem_cons_self g0 gs) hmem
        · exact ih g (by rw [e]; exact List.mem_cons_of_mem g0 hg)

/-- Splitting a newline-free group gives back the singleton group. -/
theorem pySplitNl_single (g : List Char) (h : '\n' ∉ g) : pySplitNl g = [g] := by
  induction g with
  | nil => rfl
  | cons c t ih =>
    have hc : c ≠ '\n' := fun hc => h (hc ▸ List.mem_cons_self c t)
    have ht : '\n' ∉ t := fun hm => h (List.mem_cons_of_mem c hm)
    simp [pySplitNl, hc, ih ht]

/-- Splitting `group ++ '\n' :: rest` peels the newline-free group. -/
theorem pySplitNl_append (g rest : List Char) (h : '\n' ∉ g) :
    pySplitNl (g ++ '\n' :: rest) = g :: pySplitNl rest := by
  induction g with
  | nil => simp [pySplitNl]
  | cons c t ih =>
    have hc : c ≠ '\n' := fun hc => h (hc ▸ List.mem_cons_self c t)
    have ht : '\n' ∉ t := fun hm => h (List.mem_cons_of_mem c hm)
    rw [List.cons_append]
    rw [show pySplitNl (c :: (t ++ '\n' :: rest)) =
        match pySplitNl (t ++ '\n' :: rest) with
        | g0 :: gs => (c :: g0) :: gs
        | [] => [[c]] from by simp [pySplitNl, hc]]
    rw [ih ht]

/-- Splitting is a left inverse of `'\n'.join` on non-empty lists of
newline-free groups. -/
theorem pySplitNl_joinNl (gs : List (List Char)) (h : gs ≠ [])
    (h2 : ∀ g ∈ gs, '\n' ∉ g) : pySplitNl (joinNl gs) = gs := by
  induction gs with
  | nil => exact absurd rfl h
  | cons g rest ih =>
    cases rest with
    | nil => exact pySplitNl_single g (h2 g (List.mem_cons_self g []))
    | cons g2 rest2 =>
      rw [joinNl_cons g _ (by simp)]
      rw [pySplitNl_append g _ (h2 g (List.mem_cons_self g _))]
      rw [ih (by simp) (fun x hx => h2 x (List.mem_cons_of_mem g hx))]

/-- Joining with newlines distributes over append of non-empty halves. -/
theorem joinNl_append (a b : List (List Char)) (ha : a ≠ []) (hb : b ≠ []) :
    joinNl (a ++ b) = joinNl a ++ '\n' :: joinNl b := by
  induction a with
  | nil => exact absurd rfl ha
  | cons x t ih =>
    cases t with
    | nil =>
      rw [List.cons_append, List.nil_append, joinNl_cons x b hb]
      rfl
    | cons x2 t2 =>
      rw [List.cons_append, joinNl_cons x ((x2 :: t2) ++ b) (by simp)]
      rw [joinNl_cons x (x2 :: t2) (by simp)]
      rw [ih (by simp)]
      simp [List.append_assoc]

/-- A flatten of a non-empty list of non-empty lists is non-empty. -/
theorem flatten_ne_nil {α : Type} (cs : List (List α)) (h : cs ≠ [])
    (h2 : ∀ g ∈ cs, g ≠ []) : cs.flatten ≠ [] := by
  cases cs with
  | nil => exact absurd rfl h
  | cons g rest =>
    rw [List.flatten_cons]
    intro hc
    rcases List.append_eq_nil.mp hc with ⟨hg, _⟩
    exact h2 g (List.mem_cons_self g rest) hg

/-- Joining the per-chunk joins equals joining the flattened chunks, when
every chunk is non-empty. -/
theorem joinNl_map_joinNl (cs : List (List (List Char))) (h : ∀ g ∈ cs, g ≠ []) :
    joinNl (cs.map joinNl) = joinNl cs.flatten := by
  induction cs with
  | nil => rfl
  | cons g rest ih =>
    cases rest with
    | nil => simp [joinNl]
    | cons g2 rest2 =>
      rw [List.map_cons, joinNl_cons _ _ (by simp), List.flatten_cons]
      rw [ih (fun x hx => h x (List.mem_cons_of_mem g hx))]
      rw [joinNl_append g ((g2 :: rest2).flatten)
        (h g (List.mem_cons_self g _))
        (flatten_ne_nil _ (by simp) (fun x hx => h x (List.mem_cons_of_mem g hx)))]

/-- C10: the fallback page splitter returns a non-empty chunk list; every
chunk except possibly the last spans exactly `max 1 (lineCount / 10)`
lines; and joining the chunks with a newline reconstructs the input
exactly (no text lost or duplicated). -/
theorem C10_fallback_pagination (text : String) :
    split_text_into_pages text ≠ [] ∧
    (∀ c ∈ (split_text_into_pages text).dropLast,
      (pySplitNl c.toList).length = max 1 ((pySplitNl text.toList).length / 10)) ∧
    joinNl ((split_text_into_pages text).map String.toList) = text.toList := by
  have hlines : pySplitNl text.toList ≠ [] := pySplitNl_ne_nil _
  have hlpp : 0 < max 1 ((pySplitNl text.toList).length / 10) :=
    Nat.lt_of_lt_of_le Nat.one_pos (Nat.le_max_left _ _)
  refine ⟨?_, ?_, ?_⟩
  · show (chunksOf (max 1 ((pySplitNl text.toList).length / 10)) (pySplitNl text.toList)).map
      (fun g => (⟨joinNl g⟩ : String)) ≠ []
    intro hc
    exact chunksOf_ne_nil _ _ hlines (List.map_eq_nil_iff.mp hc)
  · intro c hc
    have hc' : c ∈ ((chunksOf (max 1 ((pySplitNl text.toList).length / 10))
        (pySplitNl text.toList)).map (fun g => (⟨joinNl g⟩ : String))).dropLast := hc
    rw [← List.map_dropLast] at hc'
    obtain ⟨g, hg, rfl⟩ := List.mem_map.mp hc'
    have hgsub : g ∈ chunksOf (max 1 ((pySplitNl text.toList).length / 10))
        (pySplitNl text.toList) := List.dropLast_subset _ hg
    have hgne : g ≠ [] := chunksOfFuel_mem_ne_nil _ _ _ g hgsub
    have hnl : ∀ x ∈ g, '\n' ∉ x := by
      intro x hx
      apply pySplitNl_no_newline text.toList x
      rw [← chunksOf_flatten (max 1 ((pySplitNl text.toList).length / 10)) (pySplitNl text.toList)]
      exact List.mem_flatten.mpr ⟨g, hgsub, hx⟩
    show (pySplitNl (joinNl g)).length = _
    rw [pySplitNl_joinNl g hgne hnl]
    exact chunksOfFuel_dropLast_length _ hlpp _ _ le_rfl g hg
  · show joinNl (((chunksOf (max 1 ((pySplitNl text.toList).length / 10))
      (pySplitNl text.toList)).map (fun g => (⟨joinNl g⟩ : String))).map String.toList) =
      text.toList
    rw [List.map_map]
    rw [show (String.toList ∘ fun g => (⟨joinNl g⟩ : String)) = joinNl from rfl]
    rw [joinNl_map_joinNl _ (fun g hg => chunksOf_mem_ne_nil _ _ g hg)]
    rw [chunksOf_flatten]
    exact joinNl_pySplitNl text.toList

/-- C10 (witness): the splitter on "a\nb" (two lines, chunk size 1). -/
theorem C10_witness :
    (pySplitNl ("a" : String).toList).length =
      max 1 ((pySplitNl ("a\nb" : String).toList).length / 10) :=
  (C10_fallback_pagination "a\nb").2.1 "a" (by decide)
